import Mathlib

/-!
Verification development for the oommfc orchestration layer: mesh/field
discretisation, energy/dynamics term algebra, system aggregation and the
driver protocol. The repository material presents the layer through a
tutorial notebook (domain-wall pair conversion); the orchestration core
itself is reconstructed here from its specification, with exact rational
arithmetic standing in for floating point, and real numbers for vector
magnitudes.
-/

deriving instance DecidableEq for Except

namespace Oommf

/-- A point or triple of per-axis quantities in 3-D space, with exact
rational coordinates (metres). -/
abbrev Vec3Q := ℚ × ℚ × ℚ

/-- A cell index of a mesh: integer coordinates along x, y, z. -/
abbrev Idx := ℕ × ℕ × ℕ

/-- Error kinds of the orchestration layer. `configurationError` covers
malformed Mesh/Region, missing System fields and incompatible duplicate
terms; `solverExecutionError` carries the external engine diagnostics. -/
inductive ModelError where
  | configurationError
  | solverExecutionError (diag : String)
deriving DecidableEq

/-- Modelled from the spec: `Region` (missing from the provided sources)
is two opposite corner points `p1`, `p2` in continuous 3-D space; the
effective region is the axis-aligned box spanning the two points
regardless of point order. -/
structure Region where
  p1 : Vec3Q
  p2 : Vec3Q
deriving DecidableEq

/-- Edge lengths of the axis-aligned box spanned by the two corners. -/
def Region.edges (r : Region) : Vec3Q :=
  (|r.p2.1 - r.p1.1|, |r.p2.2.1 - r.p1.2.1|, |r.p2.2.2 - r.p1.2.2|)

/-- The componentwise minimum corner of the region. -/
def Region.pmin (r : Region) : Vec3Q :=
  (min r.p1.1 r.p2.1, min r.p1.2.1 r.p2.2.1, min r.p1.2.2 r.p2.2.2)

/-- Modelled from the spec: `Mesh` (missing from the provided sources) is
a Region plus a cell size, with derived per-axis cell counts. Validity is
established by `Mesh.make`. -/
structure Mesh where
  region : Region
  cell : Vec3Q
  n : ℕ × ℕ × ℕ
deriving DecidableEq

/-- Modelled from the spec: one axis of Mesh construction. The edge
length `e` must be a (positive) integer multiple of the cell dimension
`d`; with exact rational arithmetic the floating-point tolerance of the
spec degenerates to an exact divisibility test. -/
def axisCount (e d : ℚ) : Except ModelError ℕ :=
  if 0 < d then
    if (e / d).den = 1 ∧ 0 < (e / d).num then .ok (e / d).num.toNat
    else .error .configurationError
  else .error .configurationError

/-- Modelled from the spec: `Mesh(region, cell)` (missing from the
provided sources) fails with a configuration error if any region edge is
not an integer multiple of the matching cell dimension; otherwise the
derived cell counts are stored. -/
def Mesh.make (r : Region) (cell : Vec3Q) : Except ModelError Mesh := do
  let nx ← axisCount r.edges.1 cell.1
  let ny ← axisCount r.edges.2.1 cell.2.1
  let nz ← axisCount r.edges.2.2 cell.2.2
  .ok ⟨r, cell, (nx, ny, nz)⟩

/-- Centre coordinate of the cell with index `idx`: the minimum corner
offset by half a cell plus the index times the cell size, per axis. -/
def Mesh.center (msh : Mesh) (idx : Idx) : Vec3Q :=
  (msh.region.pmin.1 + ((idx.1 : ℚ) + 1/2) * msh.cell.1,
   msh.region.pmin.2.1 + ((idx.2.1 : ℚ) + 1/2) * msh.cell.2.1,
   msh.region.pmin.2.2 + ((idx.2.2 : ℚ) + 1/2) * msh.cell.2.2)

/-- Modelled from the spec: a Field value or norm source (missing from
the provided sources) is one of a constant, a per-position function, or a
per-cell array. -/
inductive Source (α : Type) where
  | const (a : α)
  | posFun (f : Vec3Q → α)
  | array (g : Idx → α)

/-- Evaluation of a source at a mesh cell: a constant everywhere, a
position function at the cell centre, an array at the cell index. -/
def Source.eval (msh : Mesh) : Source α → Idx → α
  | .const a, _ => a
  | .posFun f, idx => f (msh.center idx)
  | .array g, idx => g idx

/-- Modelled from the spec: `Field` (missing from the provided sources)
stores a Mesh, the per-cell vector value as supplied (`raw`) and the
per-cell scalar norm; the normalised vector value of a cell is exposed by
`Field.value`. -/
structure Field where
  mesh : Mesh
  raw : Idx → Vec3Q
  norm : Idx → ℚ

/-- Modelled from the spec: Field construction evaluates the value source
and the norm source at every mesh cell. -/
def Field.make (msh : Mesh) (vs : Source Vec3Q) (ns : Source ℚ) : Field :=
  ⟨msh, Source.eval msh vs, Source.eval msh ns⟩

/-- Squared Euclidean length of a rational triple. -/
def quadQ (v : Vec3Q) : ℚ := v.1 ^ 2 + v.2.1 ^ 2 + v.2.2 ^ 2

/-- Euclidean magnitude of a rational triple, as a real number. -/
noncomputable def magnitudeQ (v : Vec3Q) : ℝ := Real.sqrt ((quadQ v : ℚ) : ℝ)

/-- Euclidean magnitude of a real triple. -/
noncomputable def magR (w : ℝ × ℝ × ℝ) : ℝ :=
  Real.sqrt (w.1 ^ 2 + w.2.1 ^ 2 + w.2.2 ^ 2)

/-- Modelled from the spec: the normalisation step of Field construction
(missing from the provided sources). A cell with zero norm is vacuum and
its vector value is exactly zero; otherwise the supplied vector is
rescaled so its magnitude equals the norm. -/
noncomputable def rescale (v : Vec3Q) (n : ℚ) : ℝ × ℝ × ℝ :=
  if n = 0 then (0, 0, 0)
  else (((n : ℝ) / magnitudeQ v) * (v.1 : ℝ),
        ((n : ℝ) / magnitudeQ v) * (v.2.1 : ℝ),
        ((n : ℝ) / magnitudeQ v) * (v.2.2 : ℝ))

/-- The vector value of a Field at a cell, after normalisation. -/
noncomputable def Field.value (F : Field) (idx : Idx) : ℝ × ℝ × ℝ :=
  rescale (F.raw idx) (F.norm idx)

/-- A cell is vacuum when its norm is zero. -/
def Field.isVacuum (F : Field) (idx : Idx) : Prop := F.norm idx = 0

lemma quadQ_eq_zero_iff (v : Vec3Q) : quadQ v = 0 ↔ v = (0, 0, 0) := by
  obtain ⟨a, b, c⟩ := v
  unfold quadQ
  constructor
  · intro h
    have ha : a = 0 := by nlinarith [sq_nonneg a, sq_nonneg b, sq_nonneg c]
    have hb : b = 0 := by nlinarith [sq_nonneg a, sq_nonneg b, sq_nonneg c]
    have hc : c = 0 := by nlinarith [sq_nonneg a, sq_nonneg b, sq_nonneg c]
    simp [ha, hb, hc]
  · intro h
    simp only [Prod.ext_iff] at h
    simp [h.1, h.2.1, h.2.2]

lemma quadQ_nonneg (v : Vec3Q) : 0 ≤ quadQ v := by
  obtain ⟨a, b, c⟩ := v
  unfold quadQ
  positivity

lemma magnitudeQ_pos (v : Vec3Q) (hv : v ≠ (0, 0, 0)) : 0 < magnitudeQ v := by
  unfold magnitudeQ
  apply Real.sqrt_pos.mpr
  have h0 : quadQ v ≠ 0 := fun h => hv ((quadQ_eq_zero_iff v).mp h)
  have := quadQ_nonneg v
  exact_mod_cast lt_of_le_of_ne this (Ne.symm h0)

/-- Magnitude of the rescaled vector: when the norm is nonnegative and
nonzero and the supplied vector is nonzero, the result has magnitude
exactly the norm. -/
lemma magR_rescale (v : Vec3Q) (n : ℚ) (hn : n ≠ 0) (hn0 : 0 ≤ n)
    (hv : v ≠ (0, 0, 0)) : magR (rescale v n) = (n : ℚ) := by
  obtain ⟨a, b, c⟩ := v
  have hm := magnitudeQ_pos (a, b, c) hv
  unfold magR rescale
  rw [if_neg hn]
  have hsq : ((n : ℝ) / magnitudeQ (a, b, c) * (a : ℝ)) ^ 2 +
      ((n : ℝ) / magnitudeQ (a, b, c) * (b : ℝ)) ^ 2 +
      ((n : ℝ) / magnitudeQ (a, b, c) * (c : ℝ)) ^ 2 =
      ((n : ℝ) / magnitudeQ (a, b, c)) ^ 2 *
        (((a : ℝ)) ^ 2 + ((b : ℝ)) ^ 2 + ((c : ℝ)) ^ 2) := by ring
  rw [hsq]
  have hq : (((a : ℝ)) ^ 2 + ((b : ℝ)) ^ 2 + ((c : ℝ)) ^ 2) =
      ((quadQ (a, b, c) : ℚ) : ℝ) := by
    unfold quadQ
    push_cast
    ring
  rw [hq, Real.sqrt_mul (sq_nonneg _), Real.sqrt_sq_eq_abs]
  have hms : Real.sqrt ((quadQ (a, b, c) : ℚ) : ℝ) = magnitudeQ (a, b, c) := rfl
  rw [hms, abs_div, abs_of_nonneg (by exact_mod_cast hn0 : (0 : ℝ) ≤ (n : ℝ)),
    abs_of_pos hm, div_mul_cancel₀ _ (ne_of_gt hm)]

/-- A vacuum cell has vector value exactly zero. -/
lemma rescale_zero (v : Vec3Q) : rescale v 0 = (0, 0, 0) := by
  unfold rescale
  simp

/-- Saturation magnetisation from the notebook: 5.8e5 A/m. -/
def Ms : ℚ := 580000

/-- Corner `p1` of the notebook geometry. -/
def p1 : Vec3Q := (0, 0, 0)

/-- Corner `p2` of the notebook geometry: (150e-9, 50e-9, 2e-9) m. -/
def p2 : Vec3Q := (150 / 1000000000, 50 / 1000000000, 2 / 1000000000)

/-- Discretisation cell of the notebook: (2e-9, 2e-9, 2e-9) m. -/
def cellA : Vec3Q := (2 / 1000000000, 2 / 1000000000, 2 / 1000000000)

/-- The notebook region spanning `p1` to `p2`. -/
def regionA : Region := ⟨p1, p2⟩

/-- The notebook mesh: region discretised into (75, 25, 1) cells; its
validity is proved against `Mesh.make` below. -/
def meshA : Mesh := ⟨regionA, cellA, (75, 25, 1)⟩

/-- Norm function of the notebook: zero (vacuum) where
`x < 50e-9 and (y < 15e-9 or y > 35e-9)`, else `Ms`. -/
def Ms_fun (pos : Vec3Q) : ℚ :=
  if pos.1 < 50 / 1000000000 ∧
      (pos.2.1 < 15 / 1000000000 ∨ pos.2.1 > 35 / 1000000000) then 0
  else Ms

/-- Initial magnetisation of the notebook: `(0.1, 0.1, -1)` for
`30e-9 < x < 40e-9`, else `(0.1, 0.1, 1)`. -/
def m_init (pos : Vec3Q) : Vec3Q :=
  if 30 / 1000000000 < pos.1 ∧ pos.1 < 40 / 1000000000 then
    (1 / 10, 1 / 10, -1)
  else (1 / 10, 1 / 10, 1)

/-- The notebook magnetisation field
`df.Field(mesh, dim=3, value=m_init, norm=Ms_fun)`. -/
def systemM : Field := Field.make meshA (.posFun m_init) (.posFun Ms_fun)

lemma axisCount_ok_iff (e d : ℚ) (hd : 0 < d) (n : ℕ) :
    axisCount e d = .ok n ↔ 0 < n ∧ (n : ℚ) * d = e := by
  unfold axisCount
  rw [if_pos hd]
  by_cases hq : (e / d).den = 1 ∧ 0 < (e / d).num
  · rw [if_pos hq]
    have hden : ((e / d).den : ℚ) = 1 := by rw [hq.1]; norm_num
    have hnum : ((e / d).num : ℚ) = e / d := by
      have h := Rat.num_div_den (e / d)
      rw [hden] at h
      simpa using h
    constructor
    · intro h
      have hn : (e / d).num.toNat = n := by
        simpa using h
      refine ⟨?_, ?_⟩
      · rw [← hn]
        have := hq.2
        omega
      · rw [← hn]
        have htn : (((e / d).num.toNat : ℤ) : ℚ) = ((e / d).num : ℚ) := by
          rw [Int.toNat_of_nonneg (le_of_lt hq.2)]
        push_cast at htn ⊢
        rw [htn, hnum, div_mul_cancel₀ _ (ne_of_gt hd)]
    · rintro ⟨hn, hmul⟩
      have he : e / d = (n : ℚ) := by
        rw [eq_comm, eq_div_iff (ne_of_gt hd)]
        exact hmul
      have : (e / d).num = (n : ℤ) := by rw [he, Rat.num_natCast]
      simp [this]
  · rw [if_neg hq]
    constructor
    · intro h
      exact absurd h (by simp)
    · rintro ⟨hn, hmul⟩
      exfalso
      apply hq
      have he : e / d = (n : ℚ) := by
        rw [eq_comm, eq_div_iff (ne_of_gt hd)]
        exact hmul
      rw [he]
      refine ⟨Rat.den_natCast n, ?_⟩
      rw [Rat.num_natCast]
      exact_mod_cast hn

lemma axisCount_ok_elim {e d : ℚ} {n : ℕ} (h : axisCount e d = .ok n) :
    0 < d ∧ 0 < n ∧ (n : ℚ) * d = e := by
  by_cases hd : 0 < d
  · exact ⟨hd, (axisCount_ok_iff e d hd n).mp h⟩
  · unfold axisCount at h
    rw [if_neg hd] at h
    exact absurd h (by simp)

lemma axisCount_cases (e d : ℚ) :
    (∃ n, axisCount e d = .ok n) ∨ axisCount e d = .error .configurationError := by
  unfold axisCount
  split
  · split
    · exact .inl ⟨_, rfl⟩
    · exact .inr rfl
  · exact .inr rfl

lemma axisCount_error (e d : ℚ) (_hd : 0 < d)
    (hne : ¬ ∃ k : ℕ, 0 < k ∧ (k : ℚ) * d = e) :
    axisCount e d = .error .configurationError := by
  rcases axisCount_cases e d with ⟨n, hn⟩ | h
  · exfalso
    obtain ⟨-, hpos, hmul⟩ := axisCount_ok_elim hn
    exact hne ⟨n, hpos, hmul⟩
  · exact h

lemma regionA_edges :
    regionA.edges = (150 / 1000000000, 50 / 1000000000, 2 / 1000000000) := by
  unfold Region.edges regionA p1 p2
  simp only [Prod.mk.injEq]
  norm_num

lemma make_meshA : Mesh.make regionA cellA = .ok meshA := by
  have h1 : axisCount regionA.edges.1 cellA.1 = .ok 75 := by
    refine (axisCount_ok_iff _ _ (by norm_num [cellA]) 75).mpr ⟨by norm_num, ?_⟩
    rw [regionA_edges]
    norm_num [cellA]
  have h2 : axisCount regionA.edges.2.1 cellA.2.1 = .ok 25 := by
    refine (axisCount_ok_iff _ _ (by norm_num [cellA]) 25).mpr ⟨by norm_num, ?_⟩
    rw [regionA_edges]
    norm_num [cellA]
  have h3 : axisCount regionA.edges.2.2 cellA.2.2 = .ok 1 := by
    refine (axisCount_ok_iff _ _ (by norm_num [cellA]) 1).mpr ⟨by norm_num, ?_⟩
    rw [regionA_edges]
    norm_num [cellA]
  simp [Mesh.make, Bind.bind, Except.bind, h1, h2, h3, meshA]

/-- C2: for every Mesh(region, cell) whose region edges are integer
multiples of the cell dimensions, construction succeeds and the derived
cell counts satisfy `nx * dx = edge_x` (and likewise for y and z)
exactly; if any edge is not such a multiple the construction fails with a
configuration error; and the notebook region from (0,0,0) to
(150e-9, 50e-9, 2e-9) with cell (2e-9, 2e-9, 2e-9) yields cell counts
(75, 25, 1). With exact rational arithmetic the floating-point tolerance
of the claim degenerates to exact equality. -/
theorem C2_mesh_multiples :
    (∀ (r : Region) (c : Vec3Q) (msh : Mesh), Mesh.make r c = .ok msh →
      msh.region = r ∧ msh.cell = c ∧
      (msh.n.1 : ℚ) * c.1 = r.edges.1 ∧
      (msh.n.2.1 : ℚ) * c.2.1 = r.edges.2.1 ∧
      (msh.n.2.2 : ℚ) * c.2.2 = r.edges.2.2) ∧
    (∀ (r : Region) (c : Vec3Q), 0 < c.1 → 0 < c.2.1 → 0 < c.2.2 →
      (∃ k : ℕ, 0 < k ∧ (k : ℚ) * c.1 = r.edges.1) →
      (∃ k : ℕ, 0 < k ∧ (k : ℚ) * c.2.1 = r.edges.2.1) →
      (∃ k : ℕ, 0 < k ∧ (k : ℚ) * c.2.2 = r.edges.2.2) →
      ∃ msh : Mesh, Mesh.make r c = .ok msh) ∧
    (∀ (r : Region) (c : Vec3Q), 0 < c.1 → 0 < c.2.1 → 0 < c.2.2 →
      ((¬ ∃ k : ℕ, 0 < k ∧ (k : ℚ) * c.1 = r.edges.1) ∨
       (¬ ∃ k : ℕ, 0 < k ∧ (k : ℚ) * c.2.1 = r.edges.2.1) ∨
       (¬ ∃ k : ℕ, 0 < k ∧ (k : ℚ) * c.2.2 = r.edges.2.2)) →
      Mesh.make r c = .error .configurationError) ∧
    (Mesh.make regionA cellA = .ok meshA ∧ meshA.n = (75, 25, 1)) := by
  refine ⟨?_, ?_, ?_, make_meshA, rfl⟩
  · intro r c msh h
    rcases h1 : axisCount r.edges.1 c.1 with e1 | n1
    · simp [Mesh.make, Bind.bind, Except.bind, h1] at h
    rcases h2 : axisCount r.edges.2.1 c.2.1 with e2 | n2
    · simp [Mesh.make, Bind.bind, Except.bind, h1, h2] at h
    rcases h3 : axisCount r.edges.2.2 c.2.2 with e3 | n3
    · simp [Mesh.make, Bind.bind, Except.bind, h1, h2, h3] at h
    have hmsh : msh = ⟨r, c, (n1, n2, n3)⟩ := by
      simp [Mesh.make, Bind.bind, Except.bind, h1, h2, h3] at h
      exact h.symm
    obtain ⟨-, -, hm1⟩ := axisCount_ok_elim h1
    obtain ⟨-, -, hm2⟩ := axisCount_ok_elim h2
    obtain ⟨-, -, hm3⟩ := axisCount_ok_elim h3
    subst hmsh
    exact ⟨rfl, rfl, hm1, hm2, hm3⟩
  · rintro r c hc1 hc2 hc3 ⟨k1, hk1, he1⟩ ⟨k2, hk2, he2⟩ ⟨k3, hk3, he3⟩
    have h1 : axisCount r.edges.1 c.1 = .ok k1 :=
      (axisCount_ok_iff _ _ hc1 _).mpr ⟨hk1, he1⟩
    have h2 : axisCount r.edges.2.1 c.2.1 = .ok k2 :=
      (axisCount_ok_iff _ _ hc2 _).mpr ⟨hk2, he2⟩
    have h3 : axisCount r.edges.2.2 c.2.2 = .ok k3 :=
      (axisCount_ok_iff _ _ hc3 _).mpr ⟨hk3, he3⟩
    exact ⟨⟨r, c, (k1, k2, k3)⟩, by simp [Mesh.make, Bind.bind, Except.bind, h1, h2, h3]⟩
  · rintro r c hc1 hc2 hc3 (hne | hne | hne)
    · have h1 := axisCount_error _ _ hc1 hne
      simp [Mesh.make, Bind.bind, Except.bind, h1]
    · have h2 := axisCount_error _ _ hc2 hne
      rcases axisCount_cases r.edges.1 c.1 with ⟨n1, h1⟩ | h1 <;>
        simp [Mesh.make, Bind.bind, Except.bind, h1, h2]
    · have h3 := axisCount_error _ _ hc3 hne
      rcases axisCount_cases r.edges.1 c.1 with ⟨n1, h1⟩ | h1 <;>
        rcases axisCount_cases r.edges.2.1 c.2.1 with ⟨n2, h2⟩ | h2 <;>
        simp [Mesh.make, Bind.bind, Except.bind, h1, h2, h3]
/-- Witness for C2: the notebook mesh construction succeeds and its cell
counts multiplied by the cell dimensions reproduce the region edges. -/
theorem C2_mesh_multiples_witness :
    (meshA.n.1 : ℚ) * cellA.1 = regionA.edges.1 ∧
    (meshA.n.2.1 : ℚ) * cellA.2.1 = regionA.edges.2.1 ∧
    (meshA.n.2.2 : ℚ) * cellA.2.2 = regionA.edges.2.2 :=
  (C2_mesh_multiples.1 regionA cellA meshA make_meshA).2.2

/-- C1: for every Field construction (from a constant, a position
function, or a per-cell array for value and norm), value and norm are
evaluated at each cell (a position function at the cell centre); every
cell where the norm evaluates to zero is vacuum and has its vector value
exactly zero, and every cell with nonzero (nonnegative) norm and a
nonzero supplied vector has its vector value rescaled so that its
magnitude equals the norm value. Exact real arithmetic stands in for the
floating-point tolerance of the claim. -/
theorem C1_field_normalisation (msh : Mesh) (vs : Source Vec3Q)
    (ns : Source ℚ) (idx : Idx) :
    (Field.make msh vs ns).raw idx = Source.eval msh vs idx ∧
    (Field.make msh vs ns).norm idx = Source.eval msh ns idx ∧
    ((Field.make msh vs ns).norm idx = 0 →
      (Field.make msh vs ns).isVacuum idx ∧
      (Field.make msh vs ns).value idx = (0, 0, 0)) ∧
    ((Field.make msh vs ns).norm idx ≠ 0 →
      0 ≤ (Field.make msh vs ns).norm idx →
      (Field.make msh vs ns).raw idx ≠ (0, 0, 0) →
      magR ((Field.make msh vs ns).value idx) =
        (((Field.make msh vs ns).norm idx : ℚ) : ℝ)) := by
  refine ⟨rfl, rfl, ?_, ?_⟩
  · intro h
    refine ⟨h, ?_⟩
    show rescale _ _ = (0, 0, 0)
    rw [h]
    exact rescale_zero _
  · intro hn hn0 hv
    exact magR_rescale _ _ hn hn0 hv

lemma meshA_center_30_10_0 :
    meshA.center (30, 10, 0) =
      (61 / 1000000000, 21 / 1000000000, 1 / 1000000000) := by
  unfold Mesh.center meshA regionA p1 p2 cellA Region.pmin
  norm_num

lemma systemM_norm_30_10_0 : systemM.norm (30, 10, 0) = Ms := by
  show Ms_fun (meshA.center (30, 10, 0)) = Ms
  rw [meshA_center_30_10_0]
  unfold Ms_fun
  norm_num

lemma systemM_raw_30_10_0 : systemM.raw (30, 10, 0) = (1 / 10, 1 / 10, 1) := by
  show m_init (meshA.center (30, 10, 0)) = _
  rw [meshA_center_30_10_0]
  unfold m_init
  norm_num

/-- Witness for C1: the notebook field `systemM` at cell (30, 10, 0)
(centre x = 61 nm, y = 21 nm) is nonvacuum with norm `Ms`, and its
normalised vector value has magnitude exactly `Ms`. -/
theorem C1_field_normalisation_witness :
    systemM.norm (30, 10, 0) ≠ 0 ∧
    magR (systemM.value (30, 10, 0)) = ((systemM.norm (30, 10, 0) : ℚ) : ℝ) := by
  have hn : systemM.norm (30, 10, 0) ≠ 0 := by
    rw [systemM_norm_30_10_0]
    norm_num [Ms]
  have hn0 : (0 : ℚ) ≤ systemM.norm (30, 10, 0) := by
    rw [systemM_norm_30_10_0]
    norm_num [Ms]
  have hv : systemM.raw (30, 10, 0) ≠ (0, 0, 0) := by
    rw [systemM_raw_30_10_0]
    norm_num
  exact ⟨hn,
    (C1_field_normalisation meshA (.posFun m_init) (.posFun Ms_fun)
      (30, 10, 0)).2.2.2 hn hn0 hv⟩

/-- Crystal class enumeration carried by a DMI term. -/
inductive CrystalClass where
  | T
  | O
  | Cnv
  | D2d
deriving DecidableEq

/-- Kinds of energy terms: exchange, DMI, uniaxial anisotropy,
demagnetisation, Zeeman. -/
inductive EnergyKind where
  | exchange
  | dmi
  | uniaxialAnisotropy
  | demag
  | zeeman
deriving DecidableEq

/-- Modelled from the spec: the non-summable geometric parameters of an
energy term — nothing, a crystal class (DMI), or an easy-axis vector
(uniaxial anisotropy). -/
inductive EnergyGeo where
  | none
  | crystal (c : CrystalClass)
  | axis (u : Vec3Q)
deriving DecidableEq

/-- Modelled from the spec: a term of either algebra (missing from the
provided sources) is a tagged variant carrying numeric parameters (packed
into a rational triple, summed on merge) and geometric parameters (which
must match on merge). -/
structure TermOf (K G : Type) where
  kind : K
  num : Vec3Q
  geo : G
deriving DecidableEq

/-- An energy term: kind, numeric parameters, geometric parameters. -/
abbrev EnergyTerm := TermOf EnergyKind EnergyGeo

/-- The notebook energy term `mm.Exchange(A=A)`. -/
def Exchange (A : ℚ) : EnergyTerm := ⟨.exchange, (A, 0, 0), .none⟩

/-- The notebook energy term `mm.DMI(D=D, crystalclass=...)`. -/
def DMI (D : ℚ) (crystalclass : CrystalClass) : EnergyTerm :=
  ⟨.dmi, (D, 0, 0), .crystal crystalclass⟩

/-- The notebook energy term `mm.UniaxialAnisotropy(K=K, u=u)`. -/
def UniaxialAnisotropy (K : ℚ) (u : Vec3Q) : EnergyTerm :=
  ⟨.uniaxialAnisotropy, (K, 0, 0), .axis u⟩

/-- Modelled from the spec: merging two same-kind terms sums their
numeric parameters; mismatched geometric parameters are a configuration
error, not silently overwritten. -/
def mergeTerm {K G : Type} [DecidableEq G] (t u : TermOf K G) :
    Except ModelError (TermOf K G) :=
  if t.geo = u.geo then .ok ⟨t.kind, t.num + u.num, t.geo⟩
  else .error .configurationError

/-- Modelled from the spec: `aggregate + term` keeps all prior terms,
merging by kind; a new kind is appended, preserving construction order
for serialisation. -/
def addTerm {K G : Type} [DecidableEq K] [DecidableEq G] :
    List (TermOf K G) → TermOf K G → Except ModelError (List (TermOf K G))
  | [], t => .ok [t]
  | h :: rest, t =>
    if h.kind = t.kind then (mergeTerm h t).map (· :: rest)
    else (addTerm rest t).map (h :: ·)

/-- Modelled from the spec: `aggregate + aggregate` folds the right-hand
terms into the left aggregate in order. -/
def addAgg {K G : Type} [DecidableEq K] [DecidableEq G]
    (a b : List (TermOf K G)) : Except ModelError (List (TermOf K G)) :=
  List.foldlM addTerm a b

/-- Modelled from the spec: serialisation of an aggregate is the flat
ordered list of (kind, numeric parameters, geometric parameters), in
construction order. -/
def serializeTerms {K G : Type} (l : List (TermOf K G)) : List (K × Vec3Q × G) :=
  l.map fun t => (t.kind, t.num, t.geo)

/-- Kinds of dynamics terms: precession, damping, Zhang-Li STT,
Slonczewski STT. -/
inductive DynamicsKind where
  | precession
  | damping
  | zhangLi
  | slonczewski
deriving DecidableEq

/-- A dynamics term: same shape as an energy term, with no geometric
parameters. -/
abbrev DynamicsTerm := TermOf DynamicsKind Unit

/-- The notebook dynamics term `mm.Precession(gamma0=...)`. -/
def Precession (gamma0 : ℚ) : DynamicsTerm := ⟨.precession, (gamma0, 0, 0), ()⟩

/-- The notebook dynamics term `mm.Damping(alpha=...)`. -/
def Damping (alpha : ℚ) : DynamicsTerm := ⟨.damping, (alpha, 0, 0), ()⟩

/-- The notebook dynamics term `mm.ZhangLi(u=..., beta=...)`. -/
def ZhangLi (u beta : ℚ) : DynamicsTerm := ⟨.zhangLi, (u, beta, 0), ()⟩

/-- C3: energy aggregate addition is associative and commutative on
non-conflicting terms — for all energy terms e1, e2, e3 whose same-kind
geometric parameters agree, (e1 + e2) + e3 serialises identically to
e1 + (e2 + e3); and adding two terms of the same kind merges them into a
single term of that kind whose numeric parameters are the sums. -/
theorem C3_energy_add_assoc (e1 e2 e3 : EnergyTerm)
    (hc12 : e1.kind = e2.kind → e1.geo = e2.geo)
    (hc13 : e1.kind = e3.kind → e1.geo = e3.geo)
    (hc23 : e2.kind = e3.kind → e2.geo = e3.geo) :
    ((addTerm [e1] e2).bind (fun a => addTerm a e3)).map serializeTerms =
      ((addTerm [e2] e3).bind (fun b => addAgg [e1] b)).map serializeTerms ∧
    (e1.kind = e2.kind →
      addTerm [e1] e2 = .ok [⟨e1.kind, e1.num + e2.num, e1.geo⟩]) := by
  obtain ⟨k1, n1, g1⟩ := e1
  obtain ⟨k2, n2, g2⟩ := e2
  obtain ⟨k3, n3, g3⟩ := e3
  dsimp only at hc12 hc13 hc23 ⊢
  constructor
  · by_cases h12 : k1 = k2 <;> by_cases h23 : k2 = k3
    · subst h12
      subst h23
      obtain rfl : g1 = g2 := hc12 rfl
      obtain rfl : g1 = g3 := hc13 rfl
      simp [addTerm, mergeTerm, addAgg, serializeTerms, Except.map,
        Except.bind, Bind.bind, Pure.pure, Except.pure, List.foldlM,
        add_assoc]
    · subst h12
      obtain rfl : g1 = g2 := hc12 rfl
      simp [addTerm, mergeTerm, addAgg, serializeTerms, Except.map,
        Except.bind, Bind.bind, Pure.pure, Except.pure, List.foldlM, h23]
    · subst h23
      obtain rfl : g2 = g3 := hc23 rfl
      simp [addTerm, mergeTerm, addAgg, serializeTerms, Except.map,
        Except.bind, Bind.bind, Pure.pure, Except.pure, List.foldlM, h12]
    · by_cases h13 : k1 = k3
      · subst h13
        obtain rfl : g1 = g3 := hc13 rfl
        have h21 : ¬ k2 = k1 := fun h => h12 h.symm
        simp [addTerm, mergeTerm, addAgg, serializeTerms, Except.map,
          Except.bind, Bind.bind, Pure.pure, Except.pure, List.foldlM,
          h12, h21]
      · simp [addTerm, mergeTerm, addAgg, serializeTerms, Except.map,
          Except.bind, Bind.bind, Pure.pure, Except.pure, List.foldlM,
          h12, h23, h13]
  · intro h
    subst h
    obtain rfl : g1 = g2 := hc12 rfl
    simp [addTerm, mergeTerm, Except.map]

/-- Witness for C3: the notebook aggregate
`Exchange(A) + DMI(D, Cnv) + UniaxialAnisotropy(K, u)` serialises
identically whichever way the additions are associated. -/
theorem C3_energy_add_assoc_witness :
    ((addTerm [Exchange (15 / 1000000000000)] (DMI (3 / 1000) .Cnv)).bind
        (fun a => addTerm a (UniaxialAnisotropy 500000 (0, 0, 1)))).map
      serializeTerms =
      ((addTerm [DMI (3 / 1000) .Cnv]
          (UniaxialAnisotropy 500000 (0, 0, 1))).bind
        (fun b => addAgg [Exchange (15 / 1000000000000)] b)).map
      serializeTerms :=
  (C3_energy_add_assoc (Exchange (15 / 1000000000000)) (DMI (3 / 1000) .Cnv)
    (UniaxialAnisotropy 500000 (0, 0, 1))
    (by simp [Exchange, DMI]) (by simp [Exchange, UniaxialAnisotropy])
    (by simp [DMI, UniaxialAnisotropy])).1

/-- C7: for every aggregate with pairwise-distinct kinds already
containing a term `t` of some kind, adding a second term `u` of the same
kind fails with a configuration error when the geometric parameters
differ, and otherwise merges in place, summing the numeric parameters. -/
theorem C7_duplicate_kind_merge (agg : List EnergyTerm) (t u : EnergyTerm)
    (hdist : agg.Pairwise (fun a b => a.kind ≠ b.kind))
    (ht : t ∈ agg) (hk : t.kind = u.kind) :
    (t.geo ≠ u.geo → addTerm agg u = .error .configurationError) ∧
    (t.geo = u.geo →
      addTerm agg u =
        .ok (agg.map (fun a =>
          if a.kind = u.kind then ⟨a.kind, a.num + u.num, a.geo⟩ else a))) := by
  induction agg with
  | nil => cases ht
  | cons h rest ih =>
    obtain ⟨hhead, htail⟩ := List.pairwise_cons.mp hdist
    rcases List.mem_cons.mp ht with rfl | hmem
    · constructor
      · intro hg
        simp [addTerm, hk, mergeTerm, hg, Except.map]
      · intro hg
        have hmap : rest.map (fun a =>
            if a.kind = u.kind then
              (⟨a.kind, a.num + u.num, a.geo⟩ : EnergyTerm) else a) = rest := by
          rw [List.map_congr_left (g := id) ?_, List.map_id]
          intro a ha
          have : ¬ a.kind = u.kind := fun hau =>
            hhead a ha (hk.trans hau.symm)
          simp [this]
        simp [addTerm, hk, mergeTerm, hg, Except.map, hmap]
    · have hhk : ¬ h.kind = u.kind := fun hh =>
        hhead t hmem (hh.trans hk.symm)
      obtain ⟨ihc, ihm⟩ := ih htail hmem
      constructor
      · intro hg
        simp [addTerm, hhk, ihc hg, Except.map]
      · intro hg
        simp [addTerm, hhk, ihm hg, Except.map]

/-- Witness for C7: adding `DMI(1, T)` to an aggregate holding
`DMI(3e-3, Cnv)` is a configuration error, while adding `DMI(1, Cnv)`
merges the two DMI terms, summing the strengths. -/
theorem C7_duplicate_kind_merge_witness :
    addTerm [DMI (3 / 1000) CrystalClass.Cnv] (DMI 1 CrystalClass.T) =
        .error .configurationError ∧
    addTerm [DMI (3 / 1000) CrystalClass.Cnv] (DMI 1 CrystalClass.Cnv) =
      .ok [⟨EnergyKind.dmi, (3 / 1000 + 1, 0, 0), .crystal .Cnv⟩] := by
  constructor
  · exact (C7_duplicate_kind_merge [DMI (3 / 1000) .Cnv]
      (DMI (3 / 1000) .Cnv) (DMI 1 .T)
      (by simp) (by simp) (by simp [DMI])).1 (by simp [DMI])
  · have h := (C7_duplicate_kind_merge [DMI (3 / 1000) .Cnv]
      (DMI (3 / 1000) .Cnv) (DMI 1 .Cnv)
      (by simp) (by simp) (by simp [DMI])).2 (by simp [DMI])
    rw [h]
    simp [DMI]

/-- Modelled from the spec: `System` (missing from the provided sources)
aggregates a name, an energy aggregate, a dynamics aggregate and a
magnetisation Field `m`; created empty and populated by assignment, so
each component is optional until set. -/
structure System where
  name : String
  energy : Option (List EnergyTerm)
  dynamics : Option (List DynamicsTerm)
  m : Option Field

/-- Driver state machine states. -/
inductive DriverState where
  | Idle
  | Building
  | Running
  | Parsing
  | Done
  | Failed
deriving DecidableEq

/-- Observable steps of one drive invocation: serialising the input
(`build`), launching the engine subprocess (`launch`), and successfully
parsing an output file into Fields (`parseFile`). -/
inductive Event where
  | build
  | launch
  | parseFile
deriving DecidableEq

/-- Modelled from the spec: the generated solver input description
(missing from the provided sources), encoding name, mesh geometry, the
initial field data, the serialised energy terms, the serialised dynamics
terms (empty for minimisation) and the run parameters. -/
structure SolverInput where
  name : String
  mesh : Mesh
  m0raw : Idx → Vec3Q
  m0norm : Idx → ℚ
  energyTerms : List (EnergyKind × Vec3Q × EnergyGeo)
  dynamicsTerms : List (DynamicsKind × Vec3Q × Unit)
  t : ℚ
  n : ℕ

/-- Modelled from the spec: the external engine result — either exit
code 0 with a list of time-stamped output field records (MinDriver reads
the final one; TimeDriver expects one per snapshot), or a nonzero exit
code with the captured diagnostic stream. -/
inductive EngineResult where
  | records (rs : List (ℚ × (Idx → Vec3Q)))
  | failure (code : ℕ) (diag : String)

/-- The external engine, abstracted as a function of the input. -/
abbrev Engine := SolverInput → EngineResult

/-- The Building step of MinDriver: serialise Mesh + Energy aggregate +
initial magnetisation; the Dynamics aggregate is not consulted. -/
def minInput (name : String) (m : Field) (e : List EnergyTerm) :
    SolverInput :=
  ⟨name, m.mesh, m.raw, m.norm, serializeTerms e, [], 0, 1⟩

/-- The Building step of TimeDriver: additionally serialise the Dynamics
aggregate and the time/step configuration. -/
def timeInput (name : String) (m : Field) (e : List EnergyTerm)
    (d : List DynamicsTerm) (t : ℚ) (n : ℕ) : SolverInput :=
  ⟨name, m.mesh, m.raw, m.norm, serializeTerms e, serializeTerms d, t, n⟩

/-- Parsing one engine output record into a new Field on the original
mesh: a per-cell array construction carrying over the norm mask of the
previous magnetisation. -/
def parseField (m : Field) (r : Idx → Vec3Q) : Field :=
  Field.make m.mesh (.array r) (.array m.norm)

/-- The observable outcome of one MinDriver drive: the resulting System,
the raised error if any, the emitted events and the terminal state. -/
structure MinOutcome where
  system : System
  err : Option ModelError
  events : List Event
  finalState : DriverState

/-- The observable outcome of one TimeDriver drive, additionally carrying
the parsed snapshot sequence. -/
structure TimeOutcome where
  system : System
  snapshots : List (ℚ × Field)
  err : Option ModelError
  events : List Event
  finalState : DriverState

/-- Modelled from the spec: `MinDriver.drive` (missing from the provided
sources). A System with `m`, `energy` or `dynamics` unset raises a
configuration error before anything is launched; otherwise the input is
built, the engine launched, and on exit 0 the final output record is
parsed into a new Field overwriting `system.m`; a nonzero exit or missing
output reaches Failed with a solver execution error and nothing parsed. -/
def MinDriver.drive (engine : Engine) (s : System) : MinOutcome :=
  match s.m, s.energy, s.dynamics with
  | some m, some e, some _ =>
    match engine (minInput s.name m e) with
    | .failure _ diag =>
      ⟨s, some (.solverExecutionError diag), [.build, .launch], .Failed⟩
    | .records rs =>
      match rs.getLast? with
      | none =>
        ⟨s, some (.solverExecutionError "missing output"),
          [.build, .launch], .Failed⟩
      | some r =>
        ⟨{ s with m := some (parseField m r.2) }, none,
          [.build, .launch, .parseFile], .Done⟩
  | _, _, _ => ⟨s, some .configurationError, [], .Failed⟩

/-- Modelled from the spec: `TimeDriver.drive` (missing from the provided
sources), parameterised by total time `t` and snapshot count `n`. On exit
0 the `n` records are parsed into the snapshot sequence in order and
`system.m` is overwritten with the final snapshot; a wrong record count
is malformed output and reaches Failed with nothing parsed. -/
def TimeDriver.drive (engine : Engine) (s : System) (t : ℚ) (n : ℕ) :
    TimeOutcome :=
  match s.m, s.energy, s.dynamics with
  | some m, some e, some d =>
    match engine (timeInput s.name m e d t n) with
    | .failure _ diag =>
      ⟨s, [], some (.solverExecutionError diag), [.build, .launch], .Failed⟩
    | .records rs =>
      if rs.length = n then
        match (rs.map fun r => (r.1, parseField m r.2)).getLast? with
        | none =>
          ⟨s, [], some (.solverExecutionError "missing output"),
            [.build, .launch], .Failed⟩
        | some plast =>
          ⟨{ s with m := some plast.2 },
            rs.map fun r => (r.1, parseField m r.2), none,
            [.build, .launch, .parseFile], .Done⟩
      else
        ⟨s, [], some (.solverExecutionError "malformed output"),
          [.build, .launch], .Failed⟩
  | _, _, _ => ⟨s, [], some .configurationError, [], .Failed⟩

/-- Modelled from the spec: a successful mock engine for MinDriver,
producing one final-state record with direction samples `dir`. -/
def mockMinEngine (dir : Idx → Vec3Q) : Engine :=
  fun _ => .records [(0, dir)]

/-- Modelled from the spec: a successful mock engine for TimeDriver,
producing the scheduled `n` snapshot records, the i-th at simulated time
`(i + 1) * t / n`, with direction samples supplied by `dirs`. -/
def mockTimeEngine (dirs : ℕ → Idx → Vec3Q) : Engine :=
  fun inp =>
    .records ((List.range inp.n).map fun (i : ℕ) =>
      (((i : ℚ) + 1) * inp.t / (inp.n : ℚ), dirs i))

/-- The notebook energy aggregate
`Exchange(A=15e-12) + DMI(D=3e-3, Cnv) + UniaxialAnisotropy(K=0.5e6, u=(0,0,1))`. -/
def energyAgg : List EnergyTerm :=
  [Exchange (15 / 1000000000000), DMI (3 / 1000) .Cnv,
    UniaxialAnisotropy 500000 (0, 0, 1)]

/-- The notebook dynamics aggregate
`Precession(gamma0=2.211e5) + Damping(alpha=0.3)`. -/
def dynamicsAgg : List DynamicsTerm := [Precession 221100, Damping (3 / 10)]

/-- The fully populated notebook system `dw_pair_conversion`. -/
def systemA : System :=
  ⟨"dw_pair_conversion", some energyAgg, some dynamicsAgg, some systemM⟩

/-- C5: invoking either driver on a System with any of `m`, `energy`,
`dynamics` unset fails with a configuration error before any engine
subprocess is launched (no events at all are emitted, in particular no
launch), leaving the System unchanged. -/
theorem C5_unset_fails_before_launch (s : System)
    (h : s.m = none ∨ s.energy = none ∨ s.dynamics = none) :
    (∀ engine : Engine,
      (MinDriver.drive engine s).err = some .configurationError ∧
      (MinDriver.drive engine s).events = [] ∧
      Event.launch ∉ (MinDriver.drive engine s).events ∧
      (MinDriver.drive engine s).system = s) ∧
    (∀ (engine : Engine) (t : ℚ) (n : ℕ),
      (TimeDriver.drive engine s t n).err = some .configurationError ∧
      (TimeDriver.drive engine s t n).events = [] ∧
      Event.launch ∉ (TimeDriver.drive engine s t n).events ∧
      (TimeDriver.drive engine s t n).system = s) := by
  obtain ⟨nm, en, dy, mm⟩ := s
  simp only at h
  refine ⟨fun engine => ?_, fun engine t n => ?_⟩ <;>
  · rcases h with h | h | h
    · subst h
      simp [MinDriver.drive, TimeDriver.drive]
    · subst h
      rcases mm with _ | m <;> simp [MinDriver.drive, TimeDriver.drive]
    · subst h
      rcases mm with _ | m <;> rcases en with _ | e <;>
        simp [MinDriver.drive, TimeDriver.drive]

/-- Witness for C5: MinDriver on the notebook system with the energy
assignment removed raises a configuration error and never launches the
engine. -/
theorem C5_unset_fails_before_launch_witness :
    (MinDriver.drive (mockMinEngine fun _ => (0, 0, 1))
      ⟨"dw_pair_conversion", none, some dynamicsAgg, some systemM⟩).err =
        some .configurationError ∧
    Event.launch ∉ (MinDriver.drive (mockMinEngine fun _ => (0, 0, 1))
      ⟨"dw_pair_conversion", none, some dynamicsAgg, some systemM⟩).events := by
  have h := (C5_unset_fails_before_launch
    ⟨"dw_pair_conversion", none, some dynamicsAgg, some systemM⟩
    (Or.inr (Or.inl rfl))).1 (mockMinEngine fun _ => (0, 0, 1))
  exact ⟨h.1, h.2.2.1⟩

/-- C6: when the engine exits nonzero, or exits 0 with missing output
(MinDriver) or a malformed record count (TimeDriver), the driver reaches
Failed and raises a solver execution error carrying the engine
diagnostics, without parsing any output file and leaving the System (in
particular `system.m`) unchanged. -/
theorem C6_engine_failure_no_parse (s : System) (m : Field)
    (e : List EnergyTerm) (d : List DynamicsTerm) (engine : Engine)
    (hm : s.m = some m) (he : s.energy = some e) (hd : s.dynamics = some d) :
    (∀ code diag, engine (minInput s.name m e) = .failure code diag →
      (MinDriver.drive engine s).err = some (.solverExecutionError diag) ∧
      (MinDriver.drive engine s).finalState = .Failed ∧
      Event.parseFile ∉ (MinDriver.drive engine s).events ∧
      (MinDriver.drive engine s).system = s) ∧
    (engine (minInput s.name m e) = .records [] →
      (∃ diag, (MinDriver.drive engine s).err =
        some (.solverExecutionError diag)) ∧
      (MinDriver.drive engine s).finalState = .Failed ∧
      Event.parseFile ∉ (MinDriver.drive engine s).events ∧
      (MinDriver.drive engine s).system = s) ∧
    (∀ (t : ℚ) (n : ℕ) code diag,
      engine (timeInput s.name m e d t n) = .failure code diag →
      (TimeDriver.drive engine s t n).err =
        some (.solverExecutionError diag) ∧
      (TimeDriver.drive engine s t n).finalState = .Failed ∧
      Event.parseFile ∉ (TimeDriver.drive engine s t n).events ∧
      (TimeDriver.drive engine s t n).system = s) ∧
    (∀ (t : ℚ) (n : ℕ) rs,
      engine (timeInput s.name m e d t n) = .records rs → rs.length ≠ n →
      (∃ diag, (TimeDriver.drive engine s t n).err =
        some (.solverExecutionError diag)) ∧
      (TimeDriver.drive engine s t n).finalState = .Failed ∧
      Event.parseFile ∉ (TimeDriver.drive engine s t n).events ∧
      (TimeDriver.drive engine s t n).system = s) := by
  obtain ⟨nm, en, dy, mm⟩ := s
  simp only at hm he hd ⊢
  subst hm
  subst he
  subst hd
  refine ⟨?_, ?_, ?_, ?_⟩
  · intro code diag hfail
    simp [MinDriver.drive, hfail]
  · intro hrec
    exact ⟨⟨"missing output", by simp [MinDriver.drive, hrec]⟩,
      by simp [MinDriver.drive, hrec], by simp [MinDriver.drive, hrec],
      by simp [MinDriver.drive, hrec]⟩
  · intro t n code diag hfail
    simp [TimeDriver.drive, hfail]
  · intro t n rs hrec hlen
    exact ⟨⟨"malformed output", by simp [TimeDriver.drive, hrec, hlen]⟩,
      by simp [TimeDriver.drive, hrec, hlen],
      by simp [TimeDriver.drive, hrec, hlen],
      by simp [TimeDriver.drive, hrec, hlen]⟩

/-- Witness for C6: an engine exiting with code 1 and diagnostics drives
the notebook system to Failed with a solver execution error and no parse
event. -/
theorem C6_engine_failure_no_parse_witness :
    (MinDriver.drive (fun _ => .failure 1 "engine blew up") systemA).err =
      some (.solverExecutionError "engine blew up") ∧
    (MinDriver.drive (fun _ => .failure 1 "engine blew up")
      systemA).finalState = .Failed ∧
    Event.parseFile ∉
      (MinDriver.drive (fun _ => .failure 1 "engine blew up")
        systemA).events ∧
    (MinDriver.drive (fun _ => .failure 1 "engine blew up")
      systemA).system = systemA :=
  (C6_engine_failure_no_parse systemA systemM energyAgg dynamicsAgg
    (fun _ => .failure 1 "engine blew up") rfl rfl rfl).1 1
    "engine blew up" rfl

/-- The solver input the Building phase of MinDriver serialises for a
sufficiently populated System: name, mesh, initial field and energy terms
only. -/
def MinDriver.buildInput (s : System) : Option SolverInput :=
  match s.m, s.energy with
  | some m, some e => some (minInput s.name m e)
  | _, _ => none

/-- C8: MinDriver is independent of the Dynamics aggregate — two Systems
identical except for their (assigned) dynamics aggregates serialise the
same Building input, and the drive produces the same resulting field,
error, events and terminal state. -/
theorem C8_mindriver_ignores_dynamics (s1 s2 : System) (engine : Engine)
    (hn : s1.name = s2.name) (he : s1.energy = s2.energy)
    (hm : s1.m = s2.m) (hd1 : s1.dynamics.isSome)
    (hd2 : s2.dynamics.isSome) :
    MinDriver.buildInput s1 = MinDriver.buildInput s2 ∧
    (MinDriver.drive engine s1).system.m =
      (MinDriver.drive engine s2).system.m ∧
    (MinDriver.drive engine s1).err = (MinDriver.drive engine s2).err ∧
    (MinDriver.drive engine s1).events =
      (MinDriver.drive engine s2).events ∧
    (MinDriver.drive engine s1).finalState =
      (MinDriver.drive engine s2).finalState := by
  obtain ⟨nm1, en1, dy1, mm1⟩ := s1
  obtain ⟨nm2, en2, dy2, mm2⟩ := s2
  simp only at hn he hm hd1 hd2
  subst hn
  subst he
  subst hm
  obtain ⟨d1, rfl⟩ := Option.isSome_iff_exists.mp hd1
  obtain ⟨d2, rfl⟩ := Option.isSome_iff_exists.mp hd2
  rcases mm1 with _ | m
  · simp [MinDriver.buildInput, MinDriver.drive]
  rcases en1 with _ | e
  · simp [MinDriver.buildInput, MinDriver.drive]
  rcases hres : engine (minInput nm1 m e) with rs | ⟨code, diag⟩
  · rcases hlast : rs.getLast? with _ | r <;>
      simp [MinDriver.buildInput, MinDriver.drive, hres, hlast]
  · simp [MinDriver.buildInput, MinDriver.drive, hres]

/-- The notebook system after `system.dynamics += mm.ZhangLi(u=400,
beta=0.5)` — identical to `systemA` except for the dynamics aggregate. -/
def systemB : System :=
  ⟨"dw_pair_conversion", some energyAgg,
    some (dynamicsAgg ++ [ZhangLi 400 (1 / 2)]), some systemM⟩

/-- Witness for C8: the notebook system before and after the Zhang-Li
term is added serialises the same minimisation input and minimises to the
same field. -/
theorem C8_mindriver_ignores_dynamics_witness :
    MinDriver.buildInput systemA = MinDriver.buildInput systemB ∧
    (MinDriver.drive (mockMinEngine fun _ => (0, 0, 1)) systemA).system.m =
      (MinDriver.drive (mockMinEngine fun _ => (0, 0, 1))
        systemB).system.m := by
  have h := C8_mindriver_ignores_dynamics systemA systemB
    (mockMinEngine fun _ => (0, 0, 1)) rfl rfl rfl rfl rfl
  exact ⟨h.1, h.2.1⟩

/-- C9: a successful drive (either driver) mutates only `system.m` — the
name, the energy aggregate and the dynamics aggregate are unchanged, and
the new magnetisation Field is defined on the same Mesh as the previous
one. -/
theorem C9_drive_mutates_only_m :
    (∀ (engine : Engine) (s : System),
      (MinDriver.drive engine s).err = none →
      (MinDriver.drive engine s).finalState = .Done ∧
      (MinDriver.drive engine s).system.name = s.name ∧
      (MinDriver.drive engine s).system.energy = s.energy ∧
      (MinDriver.drive engine s).system.dynamics = s.dynamics ∧
      ∃ m m2, s.m = some m ∧
        (MinDriver.drive engine s).system.m = some m2 ∧
        m2.mesh = m.mesh) ∧
    (∀ (engine : Engine) (s : System) (t : ℚ) (n : ℕ),
      (TimeDriver.drive engine s t n).err = none →
      (TimeDriver.drive engine s t n).finalState = .Done ∧
      (TimeDriver.drive engine s t n).system.name = s.name ∧
      (TimeDriver.drive engine s t n).system.energy = s.energy ∧
      (TimeDriver.drive engine s t n).system.dynamics = s.dynamics ∧
      ∃ m m2, s.m = some m ∧
        (TimeDriver.drive engine s t n).system.m = some m2 ∧
        m2.mesh = m.mesh) := by
  constructor
  · intro engine s herr
    obtain ⟨nm, en, dy, mm⟩ := s
    rcases mm with _ | m
    · simp [MinDriver.drive] at herr
    rcases en with _ | e
    · simp [MinDriver.drive] at herr
    rcases dy with _ | d
    · simp [MinDriver.drive] at herr
    rcases hres : engine (minInput nm m e) with rs | ⟨code, diag⟩
    · rcases hlast : rs.getLast? with _ | r
      · simp [MinDriver.drive, hres, hlast] at herr
      · have hdrive : MinDriver.drive engine
            ⟨nm, some e, some d, some m⟩ =
            ⟨⟨nm, some e, some d, some (parseField m r.2)⟩, none,
              [.build, .launch, .parseFile], .Done⟩ := by
          simp [MinDriver.drive, hres, hlast]
        rw [hdrive]
        exact ⟨rfl, rfl, rfl, rfl, m, parseField m r.2, rfl, rfl, rfl⟩
    · simp [MinDriver.drive, hres] at herr
  · intro engine s t n herr
    obtain ⟨nm, en, dy, mm⟩ := s
    rcases mm with _ | m
    · simp [TimeDriver.drive] at herr
    rcases en with _ | e
    · simp [TimeDriver.drive] at herr
    rcases dy with _ | d
    · simp [TimeDriver.drive] at herr
    rcases hres : engine (timeInput nm m e d t n) with rs | ⟨code, diag⟩
    · by_cases hlen : rs.length = n
      · rcases hlast : (rs.map fun r => (r.1, parseField m r.2)).getLast?
          with _ | p
        · simp [TimeDriver.drive, hres, hlen, hlast] at herr
        · have hdrive : TimeDriver.drive engine
              ⟨nm, some e, some d, some m⟩ t n =
              ⟨⟨nm, some e, some d, some p.2⟩,
                rs.map fun r => (r.1, parseField m r.2), none,
                [.build, .launch, .parseFile], .Done⟩ := by
            simp [TimeDriver.drive, hres, hlen, hlast]
          rw [hdrive]
          refine ⟨rfl, rfl, rfl, rfl, m, p.2, rfl, rfl, ?_⟩
          obtain ⟨hne, hpl⟩ :=
            List.mem_getLast?_eq_getLast (Option.mem_def.mpr hlast)
          have hmem : p ∈ rs.map fun r => (r.1, parseField m r.2) := by
            rw [hpl]
            exact List.getLast_mem hne
          obtain ⟨r0, hr0, hp⟩ := List.mem_map.mp hmem
          rw [← hp]
          rfl
      · simp [TimeDriver.drive, hres, hlen] at herr
    · simp [TimeDriver.drive, hres] at herr

/-- Witness for C9: a successful mock minimisation of the notebook system
leaves the name, energy and dynamics aggregates untouched. -/
theorem C9_drive_mutates_only_m_witness :
    (MinDriver.drive (mockMinEngine fun _ => (0, 0, 1)) systemA).err =
      none ∧
    (MinDriver.drive (mockMinEngine fun _ => (0, 0, 1))
      systemA).system.energy = systemA.energy ∧
    (MinDriver.drive (mockMinEngine fun _ => (0, 0, 1))
      systemA).system.dynamics = systemA.dynamics := by
  have h := C9_drive_mutates_only_m.1 (mockMinEngine fun _ => (0, 0, 1))
    systemA rfl
  exact ⟨rfl, h.2.2.1, h.2.2.2.1⟩

/-- C10: the vacuum mask of `system.m` is invariant under successful
driver runs — the new field carries exactly the previous per-cell norm,
so every cell with zero norm before still has zero norm and exactly zero
vector value afterwards, and every cell with nonzero (nonnegative) norm
and a nonzero engine output vector keeps that norm as its magnitude
afterwards: the run changes only the direction in nonvacuum cells. -/
theorem C10_norm_mask_invariant :
    (∀ (engine : Engine) (s : System) (m : Field), s.m = some m →
      (MinDriver.drive engine s).err = none →
      ∃ m2, (MinDriver.drive engine s).system.m = some m2 ∧
        (∀ idx, m2.norm idx = m.norm idx) ∧
        (∀ idx, m.norm idx = 0 →
          m2.norm idx = 0 ∧ m2.value idx = (0, 0, 0)) ∧
        (∀ idx, m.norm idx ≠ 0 → 0 ≤ m.norm idx →
          m2.raw idx ≠ (0, 0, 0) →
          magR (m2.value idx) = ((m.norm idx : ℚ) : ℝ))) ∧
    (∀ (engine : Engine) (s : System) (t : ℚ) (n : ℕ) (m : Field),
      s.m = some m →
      (TimeDriver.drive engine s t n).err = none →
      ∃ m2, (TimeDriver.drive engine s t n).system.m = some m2 ∧
        (∀ idx, m2.norm idx = m.norm idx) ∧
        (∀ idx, m.norm idx = 0 →
          m2.norm idx = 0 ∧ m2.value idx = (0, 0, 0)) ∧
        (∀ idx, m.norm idx ≠ 0 → 0 ≤ m.norm idx →
          m2.raw idx ≠ (0, 0, 0) →
          magR (m2.value idx) = ((m.norm idx : ℚ) : ℝ))) := by
  have hfield : ∀ (m : Field) (r : Idx → Vec3Q),
      (∀ idx, (parseField m r).norm idx = m.norm idx) ∧
      (∀ idx, m.norm idx = 0 →
        (parseField m r).norm idx = 0 ∧
        (parseField m r).value idx = (0, 0, 0)) ∧
      (∀ idx, m.norm idx ≠ 0 → 0 ≤ m.norm idx →
        (parseField m r).raw idx ≠ (0, 0, 0) →
        magR ((parseField m r).value idx) = ((m.norm idx : ℚ) : ℝ)) := by
    intro m r
    refine ⟨fun idx => rfl, fun idx h0 => ⟨h0, ?_⟩, fun idx hne h0 hv => ?_⟩
    · show rescale (r idx) (m.norm idx) = (0, 0, 0)
      rw [h0]
      exact rescale_zero _
    · exact magR_rescale (r idx) (m.norm idx) hne h0 hv
  constructor
  · intro engine s m hm herr
    obtain ⟨nm, en, dy, mm⟩ := s
    simp only at hm
    subst hm
    rcases en with _ | e
    · simp [MinDriver.drive] at herr
    rcases dy with _ | d
    · simp [MinDriver.drive] at herr
    rcases hres : engine (minInput nm m e) with rs | ⟨code, diag⟩
    · rcases hlast : rs.getLast? with _ | r
      · simp [MinDriver.drive, hres, hlast] at herr
      · have hdrive : MinDriver.drive engine
            ⟨nm, some e, some d, some m⟩ =
            ⟨⟨nm, some e, some d, some (parseField m r.2)⟩, none,
              [.build, .launch, .parseFile], .Done⟩ := by
          simp [MinDriver.drive, hres, hlast]
        rw [hdrive]
        exact ⟨parseField m r.2, rfl, hfield m r.2⟩
    · simp [MinDriver.drive, hres] at herr
  · intro engine s t n m hm herr
    obtain ⟨nm, en, dy, mm⟩ := s
    simp only at hm
    subst hm
    rcases en with _ | e
    · simp [TimeDriver.drive] at herr
    rcases dy with _ | d
    · simp [TimeDriver.drive] at herr
    rcases hres : engine (timeInput nm m e d t n) with rs | ⟨code, diag⟩
    · by_cases hlen : rs.length = n
      · rcases hlast : (rs.map fun r => (r.1, parseField m r.2)).getLast?
          with _ | p
        · simp [TimeDriver.drive, hres, hlen, hlast] at herr
        · have hdrive : TimeDriver.drive engine
              ⟨nm, some e, some d, some m⟩ t n =
              ⟨⟨nm, some e, some d, some p.2⟩,
                rs.map fun r => (r.1, parseField m r.2), none,
                [.build, .launch, .parseFile], .Done⟩ := by
            simp [TimeDriver.drive, hres, hlen, hlast]
          rw [hdrive]
          obtain ⟨hne, hpl⟩ :=
            List.mem_getLast?_eq_getLast (Option.mem_def.mpr hlast)
          have hmem : p ∈ rs.map fun r => (r.1, parseField m r.2) := by
            rw [hpl]
            exact List.getLast_mem hne
          obtain ⟨r0, hr0, hp⟩ := List.mem_map.mp hmem
          refine ⟨p.2, rfl, ?_⟩
          have hp2 : p.2 = parseField m r0.2 := by
            rw [← hp]
          rw [hp2]
          exact hfield m r0.2
      · simp [TimeDriver.drive, hres, hlen] at herr
    · simp [TimeDriver.drive, hres] at herr

/-- Witness for C10: after a successful mock minimisation of the notebook
system, the written-back field keeps the old norm at cell (0, 0, 0) (a
vacuum cell of `Ms_fun`) and keeps it zero with zero vector value. -/
theorem C10_norm_mask_invariant_witness :
    (MinDriver.drive (mockMinEngine fun _ => (0, 0, 1)) systemA).err =
      none ∧
    ∃ m2,
      (MinDriver.drive (mockMinEngine fun _ => (0, 0, 1))
        systemA).system.m = some m2 ∧
      m2.norm (0, 0, 0) = systemM.norm (0, 0, 0) := by
  have h := C10_norm_mask_invariant.1 (mockMinEngine fun _ => (0, 0, 1))
    systemA systemM rfl rfl
  obtain ⟨m2, h1, h2, -, -⟩ := h
  exact ⟨rfl, m2, h1, h2 (0, 0, 0)⟩

lemma getLast?_map_range {α : Type} (f : ℕ → α) (nn : ℕ) :
    ((List.range (nn + 1)).map f).getLast? = some (f nn) := by
  rw [List.range_succ, List.map_append]
  simp

/-- Evaluation of a TimeDriver drive of a populated system against the
successful mock engine: the drive reaches Done with one parsed snapshot
per scheduled record, the i-th at time `(i + 1) * t / n`, and the final
snapshot written back. -/
lemma timeDrive_mock_eq (nm : String) (e : List EnergyTerm)
    (d : List DynamicsTerm) (m : Field) (dirs : ℕ → Idx → Vec3Q)
    (t : ℚ) (nn : ℕ) :
    TimeDriver.drive (mockTimeEngine dirs)
        ⟨nm, some e, some d, some m⟩ t (nn + 1) =
      ⟨⟨nm, some e, some d, some (parseField m (dirs nn))⟩,
        (List.range (nn + 1)).map (fun (i : ℕ) =>
          (((i : ℚ) + 1) * t / ((nn : ℚ) + 1), parseField m (dirs i))),
        none, [.build, .launch, .parseFile], .Done⟩ := by
  have hrange : (List.range (nn + 1)).getLast? = some nn := by
    rw [List.range_succ]
    simp
  simp [TimeDriver.drive, mockTimeEngine, timeInput, List.map_map,
    Function.comp, hrange]

/-- C4: driving the TimeDriver on any populated System for t = 0.2 ns
with n = 200 against a successful mock engine yields exactly 200 Field
snapshots in strictly increasing time order, each sharing the original
Mesh, with timestamps in (0, 0.2e-9] ending exactly at 0.2e-9, and
`system.m` overwritten with the final snapshot. -/
theorem C4_timedriver_snapshots (s : System) (m : Field)
    (e : List EnergyTerm) (d : List DynamicsTerm)
    (dirs : ℕ → Idx → Vec3Q) (hm : s.m = some m) (he : s.energy = some e)
    (hd : s.dynamics = some d) :
    (TimeDriver.drive (mockTimeEngine dirs) s (1 / 5000000000) 200).err =
      none ∧
    (TimeDriver.drive (mockTimeEngine dirs) s
      (1 / 5000000000) 200).finalState = .Done ∧
    (TimeDriver.drive (mockTimeEngine dirs) s
      (1 / 5000000000) 200).snapshots.length = 200 ∧
    List.Pairwise (fun a b => a.1 < b.1)
      (TimeDriver.drive (mockTimeEngine dirs) s
        (1 / 5000000000) 200).snapshots ∧
    (∀ p ∈ (TimeDriver.drive (mockTimeEngine dirs) s
        (1 / 5000000000) 200).snapshots,
      p.2.mesh = m.mesh ∧ 0 < p.1 ∧ p.1 ≤ 1 / 5000000000) ∧
    ((TimeDriver.drive (mockTimeEngine dirs) s
        (1 / 5000000000) 200).snapshots.map Prod.fst).getLast? =
      some (1 / 5000000000) ∧
    ∃ plast,
      (TimeDriver.drive (mockTimeEngine dirs) s
        (1 / 5000000000) 200).snapshots.getLast? = some plast ∧
      (TimeDriver.drive (mockTimeEngine dirs) s
        (1 / 5000000000) 200).system.m = some plast.2 := by
  obtain ⟨nm, en, dy, mm⟩ := s
  simp only at hm he hd
  subst hm
  subst he
  subst hd
  have h200 : (200 : ℕ) = 199 + 1 := by norm_num
  rw [h200, timeDrive_mock_eq]
  refine ⟨rfl, rfl, by simp, ?_, ?_, ?_, ?_⟩
  · refine List.Pairwise.map _ ?_ (List.pairwise_lt_range _)
    intro a b hab
    have hq : (a : ℚ) < b := by exact_mod_cast hab
    show ((a : ℚ) + 1) * (1 / 5000000000) / ((199 : ℚ) + 1) <
      ((b : ℚ) + 1) * (1 / 5000000000) / ((199 : ℚ) + 1)
    rw [mul_div_assoc, mul_div_assoc]
    exact mul_lt_mul_of_pos_right (by linarith) (by norm_num)
  · intro p hp
    obtain ⟨i, hi, rfl⟩ := List.mem_map.mp hp
    have hi200 : i < 199 + 1 := List.mem_range.mp hi
    refine ⟨rfl, by positivity, ?_⟩
    show ((i : ℚ) + 1) * (1 / 5000000000) / ((199 : ℚ) + 1) ≤
      1 / 5000000000
    have h1 : ((i : ℚ) + 1) ≤ 200 := by
      have : (i : ℚ) ≤ 199 := by exact_mod_cast Nat.lt_succ_iff.mp hi200
      linarith
    rw [show ((199 : ℚ) + 1) = 200 by norm_num,
      div_le_iff₀ (by norm_num : (0 : ℚ) < 200)]
    linarith
  · rw [List.map_map, getLast?_map_range]
    simp [Function.comp]
    norm_num
  · have hl := getLast?_map_range (fun (i : ℕ) =>
      (((i : ℚ) + 1) * (1 / 5000000000) / (((199 : ℕ) : ℚ) + 1),
        parseField m (dirs i))) 199
    exact ⟨_, hl, rfl⟩

/-- Witness for C4: the notebook TimeDriver run `td.drive(system,
t=0.2e-9, n=200)` against the mock engine produces 200 snapshots in
strictly increasing time order. -/
theorem C4_timedriver_snapshots_witness :
    (TimeDriver.drive (mockTimeEngine fun _ _ => (0, 0, 1)) systemA
      (1 / 5000000000) 200).snapshots.length = 200 ∧
    List.Pairwise (fun a b => a.1 < b.1)
      (TimeDriver.drive (mockTimeEngine fun _ _ => (0, 0, 1)) systemA
        (1 / 5000000000) 200).snapshots := by
  have h := C4_timedriver_snapshots systemA systemM energyAgg dynamicsAgg
    (fun _ _ => (0, 0, 1)) rfl rfl rfl
  exact ⟨h.2.2.1, h.2.2.2.1⟩

end Oommf
